import Mathlib

/-!
Shallow embedding of `GraphViewer/GraphViewer.cpp` (azyobuzin/GraphViewer).

The program opens a window and plots one function over fixed bounds.
Its core is a pure coordinate transform (`ComputePoint`) plus an
event-driven redraw operation (`App::OnRender`) that lazily creates and
caches a render target and a brush, and the resize / paint handlers.

Modelling choices:
- `double`/`FLOAT` arithmetic is idealised as `ℚ` (exact field
  arithmetic; no claim here concerns rounding).
- The Direct2D objects are tracked by observable state: a render target
  by the size it would report from `GetSize`, a brush by presence.
- The platform calls that can fail (`CreateHwndRenderTarget`,
  `CreateSolidColorBrush`, `EndDraw`) are modelled by an environment
  record carrying the `HRESULT` each call returns; `HRESULT` is a signed
  32-bit integer, `FAILED hr ↔ hr < 0`, `SUCCEEDED hr ↔ 0 ≤ hr`.
- Drawing is modelled by the list of draw calls a redraw emits.
-/

/-- The `InputFunction` struct: the function to plot and its bounds
(x-axis left/right, y-axis top/bottom values). -/
structure InputFunction where
  func : ℚ → ℚ
  startX : ℚ
  endX : ℚ
  startY : ℚ
  endY : ℚ

/-- `D2D1_SIZE_F`: the render-target size reported by `GetSize`. -/
structure Size where
  width : ℚ
  height : ℚ
deriving DecidableEq

/-- `D2D1_POINT_2F` as a pair (x, y). -/
abbrev Point := ℚ × ℚ

/-- The colors the program uses (`Clear` white background, red brush). -/
inductive Color where
  | white
  | red
deriving DecidableEq

/-- One draw call issued on the render target during a redraw. -/
inductive DrawCall where
  | clear (c : Color)
  | line (p0 p1 : Point) (c : Color) (strokeWidth : ℚ)
deriving DecidableEq

/-- The domain value computed at the top of `ComputePoint`
(GraphViewer.cpp:286-288): `argX = ((double)x / size.width) * (endX - startX) + startX`. -/
def computeArgX (f : InputFunction) (size : Size) (x : ℚ) : ℚ :=
  (x / size.width) * (f.endX - f.startX) + f.startX

/-- `ComputePoint` (GraphViewer.cpp:284-299): maps a pixel column `x`
to the screen point `(x, y)` where
`y = size.height - size.height * ((value - startY) / (endY - startY))`
and `value = func(argX)`. -/
def computePoint (f : InputFunction) (size : Size) (x : ℤ) : Point :=
  let argX := computeArgX f size (x : ℚ)
  let value := f.func argX
  let y := size.height - size.height * ((value - f.startY) / (f.endY - f.startY))
  ((x : ℚ), y)

/-- `maxX` in `OnRender` (GraphViewer.cpp:313):
`static_cast<int>(ceil(rtSize.width))`; `width` is exact here, so the
cast of the (integral) ceiling is the ceiling itself. -/
def maxX (size : Size) : ℤ := ⌈size.width⌉

/-- The pixel columns at which `OnRender` invokes `ComputePoint`:
column 0 for `prevPoint` (GraphViewer.cpp:311), then columns
`1 .. maxX` in the loop (GraphViewer.cpp:316-320). -/
def renderColumns (size : Size) : List ℤ :=
  0 :: (List.range (maxX size).toNat).map (fun (i : ℕ) => (i : ℤ) + 1)

/-- The points computed during one redraw at surface size `size`. -/
def renderPoints (f : InputFunction) (size : Size) : List Point :=
  (renderColumns size).map (computePoint f size)

/-- The `DrawLine` calls one loop pass of `OnRender` issues: iteration
`x` draws from the previous column's point to column `x`'s point with
the red brush and stroke width 2.0 (GraphViewer.cpp:316-320). -/
def lineDraws (f : InputFunction) (size : Size) : List DrawCall :=
  (List.range (maxX size).toNat).map fun (i : ℕ) =>
    .line (computePoint f size (i : ℤ)) (computePoint f size ((i : ℤ) + 1)) .red 2

/-- C7: pixel column `x = 0` maps to `argX = startX`, and, when the
width is positive, column `x = width` maps to `argX = endX`. -/
theorem computeArgX_boundary (f : InputFunction) (size : Size) (hw : 0 < size.width) :
    computeArgX f size 0 = f.startX ∧ computeArgX f size size.width = f.endX := by
  constructor
  · simp [computeArgX]
  · rw [computeArgX, div_self (ne_of_gt hw)]
    ring

/-- Witness for `computeArgX_boundary` at the program's own bounds
(startX = 0, endX = 6) and a 640 × 480 surface. -/
theorem computeArgX_boundary_witness :
    (0 : ℚ) < 640 ∧
      (computeArgX ⟨fun x => x, 0, 6, -3/2, 3/2⟩ ⟨640, 480⟩ 0 = 0 ∧
        computeArgX ⟨fun x => x, 0, 6, -3/2, 3/2⟩ ⟨640, 480⟩ 640 = 6) :=
  ⟨by norm_num, computeArgX_boundary ⟨fun x => x, 0, 6, -3/2, 3/2⟩ ⟨640, 480⟩ (by norm_num)⟩

/-- C1: under non-degenerate bounds and positive width, `ComputePoint`
returns `(x, height - height * (func argX - startY) / (endY - startY))`
with `argX = (x / width) * (endX - startX) + startX`. -/
theorem computePoint_spec (f : InputFunction) (size : Size) (x : ℤ)
    (hx : f.startX < f.endX) (hy : f.startY < f.endY) (hw : 0 < size.width) :
    computePoint f size x =
      ((x : ℚ),
        size.height -
          size.height * (f.func (((x : ℚ) / size.width) * (f.endX - f.startX) + f.startX)
              - f.startY) / (f.endY - f.startY)) := by
  unfold computePoint computeArgX
  rw [mul_div_assoc]

/-- Witness for `computePoint_spec` at a concrete input. -/
theorem computePoint_spec_witness :
    ((0 : ℚ) < 6 ∧ (-3/2 : ℚ) < 3/2 ∧ (0 : ℚ) < 640) ∧
      computePoint ⟨fun x => x, 0, 6, -3/2, 3/2⟩ ⟨640, 480⟩ 3 =
        ((3 : ℚ),
          480 - 480 * ((fun x : ℚ => x) (((3 : ℚ) / 640) * (6 - 0) + 0) - (-3/2)) / (3/2 - (-3/2))) :=
  ⟨⟨by norm_num, by norm_num, by norm_num⟩,
    computePoint_spec ⟨fun x => x, 0, 6, -3/2, 3/2⟩ ⟨640, 480⟩ 3
      (by norm_num) (by norm_num) (by norm_num)⟩

/-- C6: with non-degenerate y-bounds, a sample value equal to `startY`
maps to screen y `height`, and a value equal to `endY` maps to 0. -/
theorem computePoint_y_inversion (f : InputFunction) (size : Size) (x : ℤ)
    (hy : f.startY < f.endY) (hw : 0 < size.width) :
    (f.func (computeArgX f size (x : ℚ)) = f.startY → (computePoint f size x).2 = size.height) ∧
      (f.func (computeArgX f size (x : ℚ)) = f.endY → (computePoint f size x).2 = 0) := by
  constructor
  · intro h
    simp [computePoint, h]
  · intro h
    have hne : f.endY - f.startY ≠ 0 := sub_ne_zero.mpr (ne_of_gt hy)
    simp [computePoint, h, div_self hne]

/-- Witness for `computePoint_y_inversion`: a constant function pinned
to `startY` (here -3/2) lands on the bottom edge `y = height`. -/
theorem computePoint_y_inversion_witness :
    ((-3/2 : ℚ) < 3/2 ∧ (0 : ℚ) < 640) ∧
      ((fun _ : ℚ => (-3/2 : ℚ)) (computeArgX ⟨fun _ => -3/2, 0, 6, -3/2, 3/2⟩ ⟨640, 480⟩ ((0 : ℤ) : ℚ)) = -3/2 →
        (computePoint ⟨fun _ => -3/2, 0, 6, -3/2, 3/2⟩ ⟨640, 480⟩ 0).2 = 480) ∧
      ((fun _ : ℚ => (-3/2 : ℚ)) (computeArgX ⟨fun _ => -3/2, 0, 6, -3/2, 3/2⟩ ⟨640, 480⟩ ((0 : ℤ) : ℚ)) = 3/2 →
        (computePoint ⟨fun _ => -3/2, 0, 6, -3/2, 3/2⟩ ⟨640, 480⟩ 0).2 = 0) :=
  ⟨⟨by norm_num, by norm_num⟩,
    computePoint_y_inversion ⟨fun _ => -3/2, 0, 6, -3/2, 3/2⟩ ⟨640, 480⟩ 0
      (by norm_num) (by norm_num)⟩

/-- The fields of `App` the redraw logic reads and writes
(GraphViewer.cpp:97-106): the input function, the window's current
client-area size (what `GetClientRect` would report), the cached render
target (`m_pRenderTarget`, tracked by the size `GetSize` reports, or
`none` when the pointer is null), and whether the cached brush
(`m_pGraphLineBrush`) is non-null. -/
structure AppState where
  inputFunction : InputFunction
  clientSize : Size
  m_pRenderTarget : Option Size
  m_pGraphLineBrush : Bool

/-- Outcomes of the platform calls one redraw can make, each as the
`HRESULT` (signed 32-bit) the call returns. -/
structure RenderEnv where
  createRenderTargetHr : ℤ
  createBrushHr : ℤ
  endDrawHr : ℤ
deriving DecidableEq

/-- The success code `S_OK = 0`. -/
def S_OK : ℤ := 0

/-- `D2DERR_RECREATE_TARGET = 0x8899000C` reinterpreted as a signed
32-bit integer (all D2D failure codes have the high bit set). -/
def D2DERR_RECREATE_TARGET : ℤ := 0x8899000C - 2 ^ 32

/-- The `App` constructor (GraphViewer.cpp:108-115): all resource
pointers start null; `clientSize` is whatever client area the platform
gives the window. -/
def appInit (f : InputFunction) (clientSize : Size) : AppState :=
  { inputFunction := f
    clientSize := clientSize
    m_pRenderTarget := none
    m_pGraphLineBrush := false }

/-- The `App` destructor (GraphViewer.cpp:117-122): `SafeRelease` of
the render target and the brush. -/
def appDestructor (s : AppState) : AppState :=
  { s with m_pRenderTarget := none, m_pGraphLineBrush := false }

/-- `App::CreateDeviceResources` (GraphViewer.cpp:247-273): if the
render target is null, create it sized to the client area (`TRYRET`
returns the `HRESULT` when it is a failure code, i.e. negative); then,
if the brush is null, create it on the render target (again `TRYRET`).
Returns the `HRESULT` and the state after whatever was created. -/
def createDeviceResources (s : AppState) (env : RenderEnv) : ℤ × AppState :=
  match s.m_pRenderTarget with
  | none =>
    if env.createRenderTargetHr < 0 then (env.createRenderTargetHr, s)
    else
      let s1 := { s with m_pRenderTarget := some s.clientSize }
      if s1.m_pGraphLineBrush then (S_OK, s1)
      else if env.createBrushHr < 0 then (env.createBrushHr, s1)
      else (S_OK, { s1 with m_pGraphLineBrush := true })
  | some _ =>
    if s.m_pGraphLineBrush then (S_OK, s)
    else if env.createBrushHr < 0 then (env.createBrushHr, s)
    else (S_OK, { s with m_pGraphLineBrush := true })

/-- The observable result of one `App::OnRender` call: the returned
`HRESULT`, the draw calls issued, the points `ComputePoint` produced,
and the state the `App` is left in. -/
structure RenderResult where
  hr : ℤ
  draws : List DrawCall
  points : List Point
  state : AppState

/-- `App::OnRender` (GraphViewer.cpp:301-331): create device resources
(aborting with the failure code before any drawing when that fails),
clear to white, compute `prevPoint` at column 0, draw one line per
column `1 .. maxX`, then `EndDraw`. When `EndDraw` reports
`D2DERR_RECREATE_TARGET`, release the render target and the brush and
return success. NOTE: the source spells that success assignment
`hr = S_OK();` (line 325), which applies the call operator to the
constant `((HRESULT)0L)` and is ill-formed C++; it is modelled here as
the evident intent `hr = S_OK`. -/
def onRender (s : AppState) (env : RenderEnv) : RenderResult :=
  let hrInit := (createDeviceResources s env).1
  let s1 := (createDeviceResources s env).2
  if hrInit < 0 then ⟨hrInit, [], [], s1⟩
  else
    let rtSize := s1.m_pRenderTarget.getD s1.clientSize
    let draws := DrawCall.clear .white :: lineDraws s1.inputFunction rtSize
    let pts := renderPoints s1.inputFunction rtSize
    if env.endDrawHr = D2DERR_RECREATE_TARGET then
      ⟨S_OK, draws, pts, { s1 with m_pRenderTarget := none, m_pGraphLineBrush := false }⟩
    else ⟨env.endDrawHr, draws, pts, s1⟩

/-- `App::OnResize` (GraphViewer.cpp:275-281), reached from `WM_SIZE`
(GraphViewer.cpp:218-220): the window's client area is now
`width × height` (the `WM_SIZE` parameters), and if a render target
exists it is resized to those dimensions; otherwise nothing happens. -/
def onResize (s : AppState) (width height : ℕ) : AppState :=
  let newSize : Size := ⟨(width : ℚ), (height : ℚ)⟩
  let s1 := { s with clientSize := newSize }
  match s1.m_pRenderTarget with
  | some _ => { s1 with m_pRenderTarget := some newSize }
  | none => s1

/-- What the `WM_PAINT` handler does besides rendering. -/
inductive HostEffect where
  | validateRect
  | debugLog (hr : ℤ)
deriving DecidableEq

/-- The `WM_PAINT` arm of `App::WndProcCore` (GraphViewer.cpp:225-238):
run `OnRender`; on success (`SUCCEEDED`, i.e. `0 ≤ hr`) validate the
window, otherwise write the failure code to the debug console and leave
the window invalidated. -/
def onPaint (s : AppState) (env : RenderEnv) : AppState × List HostEffect :=
  let r := onRender s env
  if 0 ≤ r.hr then (r.state, [.validateRect])
  else (r.state, [.debugLog r.hr])

/-- Helper: when the render target and the brush are both cached,
`CreateDeviceResources` is a successful no-op. -/
theorem createDeviceResources_ready (s : AppState) (env : RenderEnv) (sz : Size)
    (hrt : s.m_pRenderTarget = some sz) (hbr : s.m_pGraphLineBrush = true) :
    createDeviceResources s env = (S_OK, s) := by
  simp [createDeviceResources, hrt, hbr]

/-- Helper: when both resources are cached, a redraw clears and then
issues the per-column line draws, and computes the points of
`renderColumns`, all at the cached render-target size. -/
theorem onRender_ready (s : AppState) (env : RenderEnv) (sz : Size)
    (hrt : s.m_pRenderTarget = some sz) (hbr : s.m_pGraphLineBrush = true) :
    (onRender s env).draws = DrawCall.clear .white :: lineDraws s.inputFunction sz ∧
      (onRender s env).points = renderPoints s.inputFunction sz := by
  unfold onRender
  rw [createDeviceResources_ready s env sz hrt hbr]
  have h0 : ¬ ((S_OK, s).1 < 0) := by norm_num [S_OK]
  rw [if_neg h0]
  simp only [hrt]
  split <;> simp

/-- C2: on a redraw with both resources cached at size `sz` with
`sz.width ≥ 0`, the draw sequence is one clear followed by exactly
`⌈width⌉` line segments, the `i`-th segment joining the points of
columns `i` and `i + 1`. -/
theorem onRender_draw_sequence (s : AppState) (env : RenderEnv) (sz : Size)
    (hrt : s.m_pRenderTarget = some sz) (hbr : s.m_pGraphLineBrush = true)
    (hw : 0 ≤ sz.width) :
    ((onRender s env).draws.length : ℤ) = 1 + ⌈sz.width⌉ ∧
      (onRender s env).draws.head? = some (DrawCall.clear .white) ∧
      ∀ i : ℕ, (i : ℤ) < ⌈sz.width⌉ →
        (onRender s env).draws[i + 1]? =
          some (DrawCall.line (computePoint s.inputFunction sz (i : ℤ))
            (computePoint s.inputFunction sz ((i : ℤ) + 1)) .red 2) := by
  obtain ⟨hd, -⟩ := onRender_ready s env sz hrt hbr
  rw [hd]
  have hn : (((maxX sz).toNat : ℤ)) = ⌈sz.width⌉ := by
    rw [maxX]; exact Int.toNat_of_nonneg (Int.ceil_nonneg hw)
  refine ⟨?_, rfl, ?_⟩
  · simp only [List.length_cons, lineDraws, List.length_map, List.length_range]
    rw [← hn]
    push_cast
    ring
  · intro i hi
    have hi' : i < (maxX sz).toNat := by
      rw [← hn] at hi
      exact_mod_cast hi
    rw [List.getElem?_cons_succ, lineDraws, List.getElem?_map, List.getElem?_range hi',
      Option.map_some']

/-- A concrete input function for witnesses: the bounds of
`CreateInputFunction` (GraphViewer.cpp:26-33) with the identity in
place of `sin`, which has no exact counterpart on `ℚ`. -/
def sampleFunction : InputFunction := ⟨fun x => x, 0, 6, -3/2, 3/2⟩

/-- A renderer state with both resources cached, on a 2 × 2 surface. -/
def sampleReadyState : AppState := ⟨sampleFunction, ⟨2, 2⟩, some ⟨2, 2⟩, true⟩

/-- An environment in which every platform call returns `S_OK`. -/
def allOkEnv : RenderEnv := ⟨0, 0, 0⟩

/-- Witness for `onRender_draw_sequence` on the concrete ready state. -/
theorem onRender_draw_sequence_witness :
    (sampleReadyState.m_pRenderTarget = some ⟨2, 2⟩ ∧
      sampleReadyState.m_pGraphLineBrush = true ∧ (0 : ℚ) ≤ (Size.mk 2 2).width) ∧
      (((onRender sampleReadyState allOkEnv).draws.length : ℤ) = 1 + ⌈(Size.mk 2 2).width⌉ ∧
        (onRender sampleReadyState allOkEnv).draws.head? = some (DrawCall.clear .white) ∧
        ∀ i : ℕ, (i : ℤ) < ⌈(Size.mk 2 2).width⌉ →
          (onRender sampleReadyState allOkEnv).draws[i + 1]? =
            some (DrawCall.line (computePoint sampleReadyState.inputFunction ⟨2, 2⟩ (i : ℤ))
              (computePoint sampleReadyState.inputFunction ⟨2, 2⟩ ((i : ℤ) + 1)) .red 2)) :=
  ⟨⟨rfl, rfl, by norm_num⟩,
    onRender_draw_sequence sampleReadyState allOkEnv ⟨2, 2⟩ rfl rfl (by norm_num)⟩

/-- C8: with no stale signal from `EndDraw` and an unchanged
environment, running the redraw again from the state the first redraw
left behind issues a structurally identical draw-call sequence (and
recomputes the same points). -/
theorem onRender_repeat_same_draws (s : AppState) (env : RenderEnv)
    (h : env.endDrawHr ≠ D2DERR_RECREATE_TARGET) :
    (onRender (onRender s env).state env).draws = (onRender s env).draws ∧
      (onRender (onRender s env).state env).points = (onRender s env).points := by
  rcases s with ⟨f, cs, rt, br⟩
  by_cases hcrt : env.createRenderTargetHr < 0 <;>
    by_cases hcb : env.createBrushHr < 0 <;>
      rcases rt with _ | sz <;> rcases br <;>
        simp [onRender, createDeviceResources, hcrt, hcb, h, S_OK]

/-- Witness for `onRender_repeat_same_draws`. -/
theorem onRender_repeat_same_draws_witness :
    allOkEnv.endDrawHr ≠ D2DERR_RECREATE_TARGET ∧
      ((onRender (onRender sampleReadyState allOkEnv).state allOkEnv).draws =
          (onRender sampleReadyState allOkEnv).draws ∧
        (onRender (onRender sampleReadyState allOkEnv).state allOkEnv).points =
          (onRender sampleReadyState allOkEnv).points) :=
  ⟨by decide, onRender_repeat_same_draws sampleReadyState allOkEnv (by decide)⟩

/-- The resource invariant: the brush is non-null only if the render
target is non-null. -/
def brushImpliesTarget (s : AppState) : Prop :=
  s.m_pGraphLineBrush = true → s.m_pRenderTarget.isSome

/-- Helper: the state a redraw leaves behind is the state after
resource creation, with both resources dropped on the stale path. -/
theorem onRender_state (s : AppState) (env : RenderEnv) :
    (onRender s env).state =
      if (createDeviceResources s env).1 < 0 then (createDeviceResources s env).2
      else if env.endDrawHr = D2DERR_RECREATE_TARGET then
        { (createDeviceResources s env).2 with
            m_pRenderTarget := none, m_pGraphLineBrush := false }
      else (createDeviceResources s env).2 := by
  unfold onRender
  by_cases h1 : (createDeviceResources s env).1 < 0
  · simp [h1]
  · by_cases h2 : env.endDrawHr = D2DERR_RECREATE_TARGET
    · simp [h1, h2]
    · simp [h1, h2]

/-- Helper: `CreateDeviceResources` preserves the brush-only-with-target
invariant. -/
theorem createDeviceResources_inv (s : AppState) (env : RenderEnv)
    (hinv : brushImpliesTarget s) :
    brushImpliesTarget (createDeviceResources s env).2 := by
  rcases s with ⟨fi, c, rt, br⟩
  rcases rt with _ | sz <;> rcases br <;>
    simp_all [brushImpliesTarget, createDeviceResources, S_OK] <;> split_ifs <;> simp

/-- C10: the constructor establishes the brush-only-with-target
invariant, and resource creation, redraw (including the stale-surface
release path), resize, and the destructor all preserve it. -/
theorem brush_target_invariant (s : AppState) (env : RenderEnv) (f : InputFunction)
    (cs : Size) (w h : ℕ) (hinv : brushImpliesTarget s) :
    brushImpliesTarget (appInit f cs) ∧
      brushImpliesTarget (createDeviceResources s env).2 ∧
      brushImpliesTarget (onRender s env).state ∧
      brushImpliesTarget (onResize s w h) ∧
      brushImpliesTarget (appDestructor s) := by
  refine ⟨by simp [brushImpliesTarget, appInit],
    createDeviceResources_inv s env hinv, ?_, ?_,
    by simp [brushImpliesTarget, appDestructor]⟩
  · rw [onRender_state]
    split_ifs
    · exact createDeviceResources_inv s env hinv
    · simp [brushImpliesTarget]
    · exact createDeviceResources_inv s env hinv
  · rcases s with ⟨fi, c, rt, br⟩
    rcases rt with _ | sz <;>
      simp_all [brushImpliesTarget, onResize]

/-- Witness for `brush_target_invariant` on a concrete ready state. -/
theorem brush_target_invariant_witness :
    brushImpliesTarget sampleReadyState ∧
      (brushImpliesTarget (appInit sampleFunction ⟨2, 2⟩) ∧
        brushImpliesTarget (createDeviceResources sampleReadyState allOkEnv).2 ∧
        brushImpliesTarget (onRender sampleReadyState allOkEnv).state ∧
        brushImpliesTarget (onResize sampleReadyState 3 3) ∧
        brushImpliesTarget (appDestructor sampleReadyState)) :=
  ⟨fun _ => rfl,
    brush_target_invariant sampleReadyState allOkEnv sampleFunction ⟨2, 2⟩ 3 3 (fun _ => rfl)⟩

/-- C5: when `CreateDeviceResources` fails, the redraw aborts before
any clearing or drawing, returns the failure code, leaves the state as
the partial creation left it, and the `WM_PAINT` handler logs the code
to the debug console instead of validating the window. -/
theorem createFailure_aborts (s : AppState) (env : RenderEnv)
    (hfail : (createDeviceResources s env).1 < 0) :
    (onRender s env).hr = (createDeviceResources s env).1 ∧
      (onRender s env).draws = [] ∧
      (onRender s env).points = [] ∧
      (onRender s env).state = (createDeviceResources s env).2 ∧
      onPaint s env =
        ((createDeviceResources s env).2,
          [HostEffect.debugLog (createDeviceResources s env).1]) := by
  have h1 : onRender s env =
      ⟨(createDeviceResources s env).1, [], [], (createDeviceResources s env).2⟩ := by
    unfold onRender
    rw [if_pos hfail]
  have h2 : ¬ (0 ≤ (createDeviceResources s env).1) := not_le.mpr hfail
  refine ⟨by rw [h1], by rw [h1], by rw [h1], by rw [h1], ?_⟩
  unfold onPaint
  rw [h1]
  simp [h2]

/-- An environment in which creating the render target fails. -/
def createFailEnv : RenderEnv := ⟨-1, 0, 0⟩

/-- Witness for `createFailure_aborts`: a fresh state (no cached
resources) whose render-target creation returns a failure code. -/
theorem createFailure_aborts_witness :
    (createDeviceResources (appInit sampleFunction ⟨2, 2⟩) createFailEnv).1 < 0 ∧
      ((onRender (appInit sampleFunction ⟨2, 2⟩) createFailEnv).hr =
          (createDeviceResources (appInit sampleFunction ⟨2, 2⟩) createFailEnv).1 ∧
        (onRender (appInit sampleFunction ⟨2, 2⟩) createFailEnv).draws = [] ∧
        (onRender (appInit sampleFunction ⟨2, 2⟩) createFailEnv).points = [] ∧
        (onRender (appInit sampleFunction ⟨2, 2⟩) createFailEnv).state =
          (createDeviceResources (appInit sampleFunction ⟨2, 2⟩) createFailEnv).2 ∧
        onPaint (appInit sampleFunction ⟨2, 2⟩) createFailEnv =
          ((createDeviceResources (appInit sampleFunction ⟨2, 2⟩) createFailEnv).2,
            [HostEffect.debugLog
              (createDeviceResources (appInit sampleFunction ⟨2, 2⟩) createFailEnv).1])) :=
  ⟨by decide, createFailure_aborts (appInit sampleFunction ⟨2, 2⟩) createFailEnv (by decide)⟩

/-- An environment in which `EndDraw` reports `D2DERR_RECREATE_TARGET`. -/
def staleEnv : RenderEnv := ⟨0, 0, D2DERR_RECREATE_TARGET⟩

/-- C4 (modelled intent): when `EndDraw` reports
`D2DERR_RECREATE_TARGET` after resource creation succeeded, the redraw
releases both the cached render target and the cached brush and returns
`S_OK`, so the `WM_PAINT` handler validates the window rather than
logging an error. The source spells the success assignment
`hr = S_OK();` (GraphViewer.cpp:325), which is ill-formed C++ (it
applies the call operator to the constant `((HRESULT)0L)`); the model
uses the evident intent `hr = S_OK`. -/
theorem onRender_stale_recreate (s : AppState) (env : RenderEnv)
    (hok : 0 ≤ (createDeviceResources s env).1)
    (hstale : env.endDrawHr = D2DERR_RECREATE_TARGET) :
    (onRender s env).hr = S_OK ∧
      (onRender s env).state.m_pRenderTarget = none ∧
      (onRender s env).state.m_pGraphLineBrush = false ∧
      onPaint s env = ((onRender s env).state, [HostEffect.validateRect]) := by
  have hno : ¬ ((createDeviceResources s env).1 < 0) := not_lt.mpr hok
  have hhr : (onRender s env).hr = S_OK := by
    unfold onRender
    simp [hno, hstale]
  have hst : (onRender s env).state =
      { (createDeviceResources s env).2 with
          m_pRenderTarget := none, m_pGraphLineBrush := false } := by
    unfold onRender
    simp [hno, hstale]
  refine ⟨hhr, by rw [hst], by rw [hst], ?_⟩
  unfold onPaint
  simp only [hhr]
  norm_num [S_OK]

/-- Witness for `onRender_stale_recreate` on the concrete ready state. -/
theorem onRender_stale_recreate_witness :
    (0 ≤ (createDeviceResources sampleReadyState staleEnv).1 ∧
        staleEnv.endDrawHr = D2DERR_RECREATE_TARGET) ∧
      ((onRender sampleReadyState staleEnv).hr = S_OK ∧
        (onRender sampleReadyState staleEnv).state.m_pRenderTarget = none ∧
        (onRender sampleReadyState staleEnv).state.m_pGraphLineBrush = false ∧
        onPaint sampleReadyState staleEnv =
          ((onRender sampleReadyState staleEnv).state, [HostEffect.validateRect])) :=
  ⟨⟨by decide, rfl⟩, onRender_stale_recreate sampleReadyState staleEnv (by decide) rfl⟩

/-- The coordinate transform with its two divisions guarded: `none`
exactly when a divisor (`size.width` for `argX`, `endY - startY` for
the y map) is zero; the source performs both divisions unguarded. -/
def computePointChecked (f : InputFunction) (size : Size) (x : ℤ) : Option Point :=
  if size.width = 0 then none
  else if f.endY - f.startY = 0 then none
  else some (computePoint f size x)

/-- C9: on a zero-width surface the redraw draws no line segments (the
loop bound `maxX = ceil 0 = 0` gives zero iterations), yet still
computes the column-0 point, whose `x / width` division has divisor 0;
for nonnegative widths and non-degenerate y-bounds, the transform's
divisions are defined exactly when the width is positive. -/
theorem width_zero_division (s : AppState) (env : RenderEnv) (h : ℚ)
    (size : Size) (x : ℤ)
    (hrt : s.m_pRenderTarget = some ⟨0, h⟩) (hbr : s.m_pGraphLineBrush = true)
    (hw0 : 0 ≤ size.width) (hy : s.inputFunction.endY ≠ s.inputFunction.startY) :
    maxX ⟨0, h⟩ = 0 ∧
      (onRender s env).draws = [DrawCall.clear .white] ∧
      (onRender s env).points = [computePoint s.inputFunction ⟨0, h⟩ 0] ∧
      computePointChecked s.inputFunction ⟨0, h⟩ 0 = none ∧
      ((computePointChecked s.inputFunction size x).isSome ↔ 0 < size.width) := by
  obtain ⟨hd, hp⟩ := onRender_ready s env ⟨0, h⟩ hrt hbr
  have hmax : maxX ⟨0, h⟩ = 0 := by simp [maxX]
  refine ⟨hmax, ?_, ?_, ?_, ?_⟩
  · rw [hd, lineDraws, hmax]
    rfl
  · rw [hp, renderPoints, renderColumns, hmax]
    rfl
  · simp [computePointChecked]
  · rw [computePointChecked]
    split_ifs with h1 h2
    · simp [h1]
    · exact absurd (sub_eq_zero.mp h2) hy
    · simpa using lt_of_le_of_ne hw0 (Ne.symm h1)

/-- A renderer state with cached resources on a zero-width surface. -/
def zeroWidthState : AppState := ⟨sampleFunction, ⟨0, 5⟩, some ⟨0, 5⟩, true⟩

/-- Witness for `width_zero_division` on a concrete zero-width state. -/
theorem width_zero_division_witness :
    (zeroWidthState.m_pRenderTarget = some ⟨0, 5⟩ ∧
        zeroWidthState.m_pGraphLineBrush = true ∧
        (0 : ℚ) ≤ (Size.mk 3 2).width ∧
        zeroWidthState.inputFunction.endY ≠ zeroWidthState.inputFunction.startY) ∧
      (maxX ⟨0, 5⟩ = 0 ∧
        (onRender zeroWidthState allOkEnv).draws = [DrawCall.clear .white] ∧
        (onRender zeroWidthState allOkEnv).points =
          [computePoint zeroWidthState.inputFunction ⟨0, 5⟩ 0] ∧
        computePointChecked zeroWidthState.inputFunction ⟨0, 5⟩ 0 = none ∧
        ((computePointChecked zeroWidthState.inputFunction (Size.mk 3 2) 1).isSome ↔
          0 < (Size.mk 3 2).width)) :=
  ⟨⟨rfl, rfl, by norm_num, by norm_num [zeroWidthState, sampleFunction]⟩,
    width_zero_division zeroWidthState allOkEnv 5 (Size.mk 3 2) 1 rfl rfl
      (by norm_num) (by norm_num [zeroWidthState, sampleFunction])⟩

/-- Helper: `CreateDeviceResources` never changes the input function or
the client size, and its render target is either the one already cached
or freshly created at the client size. -/
theorem createDeviceResources_fields (s : AppState) (env : RenderEnv) :
    (createDeviceResources s env).2.inputFunction = s.inputFunction ∧
      (createDeviceResources s env).2.clientSize = s.clientSize ∧
      ((createDeviceResources s env).2.m_pRenderTarget = s.m_pRenderTarget ∨
        (s.m_pRenderTarget = none ∧
          (createDeviceResources s env).2.m_pRenderTarget = some s.clientSize)) := by
  rcases s with ⟨f, c, rt, br⟩
  rcases rt with _ | sz <;> rcases br <;>
    simp [createDeviceResources] <;> split_ifs <;> simp

/-- Helper: when resource creation does not fail, the points a redraw
computes are those of `renderPoints` at the post-creation target size. -/
theorem onRender_points_eq (s : AppState) (env : RenderEnv)
    (hok : ¬ (createDeviceResources s env).1 < 0) :
    (onRender s env).points =
      renderPoints (createDeviceResources s env).2.inputFunction
        ((createDeviceResources s env).2.m_pRenderTarget.getD
          (createDeviceResources s env).2.clientSize) := by
  unfold onRender
  simp only [hok, if_false]
  split <;> rfl

/-- Helper: `OnResize` sets the client size to the new dimensions,
keeps the input function, and leaves the target either absent or
resized to the new dimensions. -/
theorem onResize_fields (s : AppState) (w h : ℕ) :
    (onResize s w h).clientSize = ⟨(w : ℚ), (h : ℚ)⟩ ∧
      (onResize s w h).inputFunction = s.inputFunction ∧
      ((onResize s w h).m_pRenderTarget = none ∨
        (onResize s w h).m_pRenderTarget = some ⟨(w : ℚ), (h : ℚ)⟩) := by
  rcases s with ⟨f, c, rt, br⟩
  rcases rt with _ | sz <;> simp [onResize]

/-- Helper: when the function's values stay within `[startY, endY]` and
the y-bounds are non-degenerate, every point sampled on a `w2 × h2`
surface lies in the screen rectangle `[0, w2] × [0, h2]`. -/
theorem renderPoints_bounds (f : InputFunction) (w2 h2 : ℕ)
    (hy : f.startY < f.endY)
    (hrange : ∀ q : ℚ, f.startY ≤ f.func q ∧ f.func q ≤ f.endY) :
    ∀ p ∈ renderPoints f ⟨(w2 : ℚ), (h2 : ℚ)⟩,
      0 ≤ p.1 ∧ p.1 ≤ (w2 : ℚ) ∧ 0 ≤ p.2 ∧ p.2 ≤ (h2 : ℚ) := by
  intro p hp
  rw [renderPoints] at hp
  obtain ⟨c, hc, rfl⟩ := List.mem_map.mp hp
  have hmax : maxX ⟨(w2 : ℚ), (h2 : ℚ)⟩ = (w2 : ℤ) := by
    simp [maxX]
  have hcb : 0 ≤ c ∧ c ≤ (w2 : ℤ) := by
    rw [renderColumns, hmax] at hc
    rcases List.mem_cons.mp hc with h0 | hmem
    · subst h0
      exact ⟨le_refl 0, Int.natCast_nonneg w2⟩
    · obtain ⟨i, hi, rfl⟩ := List.mem_map.mp hmem
      have hlt : i < ((w2 : ℤ)).toNat := List.mem_range.mp hi
      omega
  set t := (f.func (computeArgX f ⟨(w2 : ℚ), (h2 : ℚ)⟩ (c : ℚ)) - f.startY) /
    (f.endY - f.startY) with ht
  have hsub : (0 : ℚ) < f.endY - f.startY := sub_pos.mpr hy
  have ht0 : 0 ≤ t := by
    apply div_nonneg _ (le_of_lt hsub)
    have := (hrange (computeArgX f ⟨(w2 : ℚ), (h2 : ℚ)⟩ (c : ℚ))).1
    linarith
  have ht1 : t ≤ 1 := by
    rw [ht, div_le_one hsub]
    have := (hrange (computeArgX f ⟨(w2 : ℚ), (h2 : ℚ)⟩ (c : ℚ))).2
    linarith
  have hh : (0 : ℚ) ≤ (h2 : ℚ) := Nat.cast_nonneg h2
  have hmul0 : 0 ≤ (h2 : ℚ) * t := mul_nonneg hh ht0
  have hmul1 : (h2 : ℚ) * t ≤ (h2 : ℚ) := mul_le_of_le_one_right hh ht1
  refine ⟨?_, ?_, ?_, ?_⟩
  · show (0 : ℚ) ≤ (c : ℚ)
    exact_mod_cast hcb.1
  · show ((c : ℚ)) ≤ (w2 : ℚ)
    exact_mod_cast hcb.2
  · show 0 ≤ (h2 : ℚ) - (h2 : ℚ) * t
    linarith
  · show (h2 : ℚ) - (h2 : ℚ) * t ≤ (h2 : ℚ)
    linarith

/-- C3 (amended): provided the plotted function's values stay within
the y-range `[startY, endY]` (with `endY > startY`), every point the
redraw after a resize to `w2 × h2` computes lies in `[0, w2] × [0, h2]`. -/
theorem resize_bounds_amended (s : AppState) (env : RenderEnv) (w2 h2 : ℕ)
    (hy : s.inputFunction.startY < s.inputFunction.endY)
    (hrange : ∀ q : ℚ, s.inputFunction.startY ≤ s.inputFunction.func q ∧
        s.inputFunction.func q ≤ s.inputFunction.endY) :
    ∀ p ∈ (onRender (onResize s w2 h2) env).points,
      0 ≤ p.1 ∧ p.1 ≤ (w2 : ℚ) ∧ 0 ≤ p.2 ∧ p.2 ≤ (h2 : ℚ) := by
  intro p hp
  by_cases hfail : (createDeviceResources (onResize s w2 h2) env).1 < 0
  · have hnil : (onRender (onResize s w2 h2) env).points = [] := by
      unfold onRender
      simp [hfail]
    rw [hnil] at hp
    cases hp
  · rw [onRender_points_eq (onResize s w2 h2) env hfail] at hp
    obtain ⟨hcs, hfn, hrt⟩ := onResize_fields s w2 h2
    obtain ⟨hfn2, hcs2, hrt2⟩ := createDeviceResources_fields (onResize s w2 h2) env
    have hsize :
        (createDeviceResources (onResize s w2 h2) env).2.m_pRenderTarget.getD
            (createDeviceResources (onResize s w2 h2) env).2.clientSize =
          ⟨(w2 : ℚ), (h2 : ℚ)⟩ := by
      rcases hrt2 with heq | ⟨hnone, hnew⟩
      · rcases hrt with hn | hsome
        · rw [heq, hn, Option.getD_none, hcs2, hcs]
        · rw [heq, hsome, Option.getD_some]
      · rw [hnew, Option.getD_some, hcs]
    rw [hsize, hfn2, hfn] at hp
    exact renderPoints_bounds s.inputFunction w2 h2 hy hrange p hp

/-- An input function whose value (10) leaves the y-range `[0, 1]`. -/
def cexFunction : InputFunction := ⟨fun _ => 10, 0, 1, 0, 1⟩

/-- A ready renderer state plotting `cexFunction` on a 4 × 4 surface. -/
def cexState : AppState := ⟨cexFunction, ⟨4, 4⟩, some ⟨4, 4⟩, true⟩

/-- C3 (counterexample): after resizing to 2 × 1, the redraw of
`cexFunction` computes the point `(0, -9)`, outside `[0, 2] × [0, 1]`;
so the claim does not hold for every `PlotSpec`. -/
theorem resize_bounds_counterexample :
    ¬ (∀ p ∈ (onRender (onResize cexState 2 1) allOkEnv).points,
        0 ≤ p.1 ∧ p.1 ≤ ((2 : ℕ) : ℚ) ∧ 0 ≤ p.2 ∧ p.2 ≤ ((1 : ℕ) : ℚ)) := by
  intro hall
  have h2 :=
    (onRender_ready (onResize cexState 2 1) allOkEnv ⟨((2 : ℕ) : ℚ), ((1 : ℕ) : ℚ)⟩ rfl rfl).2
  have hmem :
      computePoint (onResize cexState 2 1).inputFunction ⟨((2 : ℕ) : ℚ), ((1 : ℕ) : ℚ)⟩ 0 ∈
        (onRender (onResize cexState 2 1) allOkEnv).points := by
    rw [h2, renderPoints]
    refine List.mem_map_of_mem _ ?_
    rw [renderColumns]
    exact List.mem_cons_self _ _
  obtain ⟨-, -, h3, -⟩ := hall _ hmem
  norm_num [computePoint, computeArgX, onResize, cexState, cexFunction] at h3

/-- An input function whose constant value 1/2 stays inside `[0, 1]`. -/
def inRangeFunction : InputFunction := ⟨fun _ => 1/2, 0, 1, 0, 1⟩

/-- A ready renderer state plotting `inRangeFunction`. -/
def inRangeState : AppState := ⟨inRangeFunction, ⟨4, 4⟩, some ⟨4, 4⟩, true⟩

/-- Witness for `resize_bounds_amended` on a concrete in-range state. -/
theorem resize_bounds_amended_witness :
    (inRangeState.inputFunction.startY < inRangeState.inputFunction.endY ∧
        ∀ q : ℚ, inRangeState.inputFunction.startY ≤ inRangeState.inputFunction.func q ∧
          inRangeState.inputFunction.func q ≤ inRangeState.inputFunction.endY) ∧
      ∀ p ∈ (onRender (onResize inRangeState 2 1) allOkEnv).points,
        0 ≤ p.1 ∧ p.1 ≤ ((2 : ℕ) : ℚ) ∧ 0 ≤ p.2 ∧ p.2 ≤ ((1 : ℕ) : ℚ) :=
  ⟨⟨by norm_num [inRangeState, inRangeFunction],
      fun q => by norm_num [inRangeState, inRangeFunction]⟩,
    resize_bounds_amended inRangeState allOkEnv 2 1
      (by norm_num [inRangeState, inRangeFunction])
      (fun q => by norm_num [inRangeState, inRangeFunction])⟩
